import Mathlib

/-!
# The delayed three-stage callback pipeline of `callbackhell.js`

A shallow embedding of `src/callbackhell.js`.

* `JsVal` is the fragment of JavaScript values that can flow through the
  program: `null`, `undefined`, booleans, safe integers, strings, ordinary
  objects with data properties, and arrays.
* `Prog` is the statement language the source is written in: `console.log`,
  `console.error`, `setTimeout`, a call of one of the three global stage
  functions with a callback, sequencing, and an uncaught `TypeError`.
* `World` is the state of the single-threaded host: a virtual clock, the
  statements still to run in the current task, the timer queue, the console
  and a record of every stage call.  `step` is one transition of the event
  loop, `advance` iterates it a fixed number of times, `run` iterates it until
  the loop has nothing left to do.

The stage functions are looked up by name in an `Env` at call time, exactly as
the global function bindings of the script are, so that the driver can be run
against the real stages (`stages`) or against stand-ins.
-/

namespace CallbackHell

/-! ## Values -/

/-- An integer in the range of `Number.isSafeInteger`: magnitude below
`2 ^ 53`.  Every such integer is a Number, and its `ToString` is its plain
decimal numeral. -/
structure SafeInt where
  val : Int
  safe : val.natAbs < 2 ^ 53

/-- JavaScript values.  `num n` is the Number whose value is the safe integer
`n`.  `obj fields` is an ordinary object with prototype `Object.prototype`
whose own properties are the listed data properties; no value of the model is
callable.  `arr items` is an ordinary array. -/
inductive JsVal where
  | null
  | undefined
  | bool (b : Bool)
  | num (n : SafeInt)
  | str (s : String)
  | obj (fields : List (String × JsVal))
  | arr (items : List JsVal)

namespace JsVal

mutual
/-- The abstract operation `ToString`, as used by a template literal
`${v}`; `none` is the `TypeError` it raises.  An object is converted by its
`toString` method: the inherited one yields `"[object Object]"`; an own
property `toString` shadows it, is not callable, and leaves only `valueOf`,
which does not yield a primitive, so the conversion throws.  An array is
converted by `join(",")`. -/
def toStr : JsVal → Option String
  | null => some "null"
  | undefined => some "undefined"
  | bool b => some (if b then "true" else "false")
  | num n => some (toString n.val)
  | str s => some s
  | obj fields => if fields.any (fun f => f.1 == "toString") then none else some "[object Object]"
  | arr items => joinWith "," items
termination_by structural v => v
/-- The method `Array.prototype.join(sep)`: `null` and `undefined` elements
render as the empty string, every other element through `ToString`; `none` is
the `TypeError` of an element that cannot be converted. -/
def joinWith (sep : String) : List JsVal → Option String
  | [] => some ""
  | v :: rest =>
    match (match v with
      | null => some ""
      | undefined => some ""
      | v => toStr v) with
    | none => none
    | some head =>
      match rest with
      | [] => some head
      | _ :: _ =>
        match joinWith sep rest with
        | none => none
        | some tail => some (head ++ sep ++ tail)
termination_by structural l => l
end

/-- The abstract operation `ToBoolean`, as used by `if (err)`. -/
def truthy : JsVal → Bool
  | null => false
  | undefined => false
  | bool b => b
  | num n => n.val != 0
  | str s => s != ""
  | obj _ => true
  | arr _ => true

/-- The property read `user.name`.  `none` is the `TypeError` raised when the
base is `null` or `undefined`; a base without such a property reads as
`undefined`. -/
def nameOf : JsVal → Option JsVal
  | null => none
  | undefined => none
  | obj fields => some ((fields.lookup "name").getD undefined)
  | _ => some undefined

end JsVal

open JsVal

/-! ## Programs -/

/-- The three global functions of the script. -/
inductive Stage where
  | getUser
  | getOrders
  | processOrders
  deriving DecidableEq

/-- Statements.  A callback is a function of the two arguments `(err, value)`
it is applied to; applying it yields the statements of its body. -/
inductive Prog where
  | skip
  | log (args : List JsVal)
  | error (args : List JsVal)
  | throw (what : String)
  | setTimeout (body : Prog) (delay : Nat)
  | call (f : Stage) (arg : JsVal) (callback : JsVal → JsVal → Prog)
  | seq (first second : Prog)

/-- A Node-style callback `(err, value) => { ... }`. -/
abbrev Callback := JsVal → JsVal → Prog

/-- A stage function `(input, callback) => { ... }`. -/
abbrev StageFn := JsVal → Callback → Prog

/-- The global bindings of the three stage names. -/
structure Env where
  getUser : StageFn
  getOrders : StageFn
  processOrders : StageFn

/-- Resolve a stage name. -/
def Env.lookup (env : Env) : Stage → StageFn
  | .getUser => env.getUser
  | .getOrders => env.getOrders
  | .processOrders => env.processOrders

/-! ## The stages (`callbackhell.js`, lines 2-24) -/

/-- The function `getUser` with its timer delay as a parameter.  The timer
body renders `id` in its first template literal, which throws if `id` cannot
be converted to a string. -/
def getUserAfter (delay : Nat) (id : JsVal) (callback : Callback) : Prog :=
  .setTimeout
    (match toStr id with
      | none => .throw "TypeError"
      | some s =>
        .seq (.log [.str ("Fetching user with ID: " ++ s)])
          (callback .null (.obj [("id", id), ("name", .str ("User " ++ s))])))
    delay

/-- The function `getUser(id, callback)`. -/
def getUser : StageFn := getUserAfter 1000

/-- The function `getOrders` with its timer delay as a parameter.  The timer
body throws if `user` is `null` or `undefined`, or if `user.name` cannot be
converted to a string. -/
def getOrdersAfter (delay : Nat) (user : JsVal) (callback : Callback) : Prog :=
  .setTimeout
    (match nameOf user with
      | none => .throw "TypeError"
      | some name =>
        match toStr name with
        | none => .throw "TypeError"
        | some s =>
          .seq (.log [.str ("Fetching orders for user: " ++ s)])
            (callback .null (.arr [.str ("Order A for " ++ s), .str ("Order B for " ++ s)])))
    delay

/-- The function `getOrders(user, callback)`. -/
def getOrders : StageFn := getOrdersAfter 1000

/-- The expression `orders.map(order => "Processed " + order)` on the elements
of an array, from the first element on; `none` is the `TypeError` of an
element that cannot be converted to a string. -/
def processAll : List JsVal → Option (List JsVal)
  | [] => some []
  | order :: rest =>
    match toStr order with
    | none => none
    | some s =>
      match processAll rest with
      | none => none
      | some tail => some (.str ("Processed " ++ s) :: tail)

/-- The function `processOrders` with its timer delay as a parameter.  Only an
array has the methods `join` and `map`; on anything else the timer body raises
a `TypeError`, as it does when an element cannot be converted to a string. -/
def processOrdersAfter (delay : Nat) (orders : JsVal) (callback : Callback) : Prog :=
  .setTimeout
    (match orders with
      | .arr items =>
        match joinWith ", " items with
        | none => .throw "TypeError"
        | some line =>
          .seq (.log [.str ("Processing orders: " ++ line)])
            (match processAll items with
              | none => .throw "TypeError"
              | some processedOrders => callback .null (.arr processedOrders))
      | _ => .throw "TypeError")
    delay

/-- The function `processOrders(orders, callback)`. -/
def processOrders : StageFn := processOrdersAfter 1000

/-- The stage functions with the given timer delays. -/
def stagesAfter (d1 d2 d3 : Nat) : Env :=
  { getUser := getUserAfter d1
    getOrders := getOrdersAfter d2
    processOrders := processOrdersAfter d3 }

/-- The global bindings of the script as written. -/
def stages : Env :=
  { getUser := getUser
    getOrders := getOrders
    processOrders := processOrders }

/-! ## The driver (`callbackhell.js`, lines 27-46) -/

/-- The innermost callback `(err, processedOrders) => { ... }`. -/
def onProcessed (err processedOrders : JsVal) : Prog :=
  if truthy err then
    .error [.str "Error processing orders:", err]
  else
    .seq (.log [.str "All tasks completed!"])
      (.log [.str "Processed Orders:", processedOrders])

/-- The middle callback `(err, orders) => { ... }`. -/
def onOrders (err orders : JsVal) : Prog :=
  if truthy err then
    .error [.str "Error getting orders:", err]
  else
    .call .processOrders orders onProcessed

/-- The outer callback `(err, user) => { ... }`. -/
def onUser (err user : JsVal) : Prog :=
  if truthy err then
    .error [.str "Error getting user:", err]
  else
    .call .getOrders user onOrders

/-- The top-level statement `getUser(id, (err, user) => { ... })` for a given
identifier. -/
def driver (id : JsVal) : Prog :=
  .call .getUser id onUser

/-- The script as written: the driver at the identifier `123`. -/
def main : Prog := driver (.num ⟨123, by decide⟩)

/-! ## The event loop -/

/-- The two console streams. -/
inductive Stream where
  | out
  | err
  deriving DecidableEq

/-- One console call: when it happened, on which stream, with which
arguments. -/
structure Event where
  time : Nat
  stream : Stream
  args : List JsVal

/-- A pending timer. -/
structure Timer where
  id : Nat
  due : Nat
  body : Prog

/-- The state of the host. -/
structure World where
  now : Nat
  stack : List Prog
  timers : List Timer
  nextId : Nat
  out : List Event
  calls : List (Nat × Stage)
  crashed : Option String

/-- The timer to fire next: the one due first, the one set first among those
due at the same time. -/
def nextTimer : List Timer → Option Timer
  | [] => none
  | t :: ts =>
    match nextTimer ts with
    | none => some t
    | some u => if u.due < t.due then some u else some t

/-- One transition of the event loop.  With statements left in the current
task, the first one is executed.  With none left, the next timer fires, the
clock moving to its due time.  With neither, the loop is finished. -/
def step (env : Env) (w : World) : Option World :=
  match w.stack with
  | [] =>
    match nextTimer w.timers with
    | none => none
    | some t =>
      some { w with
        now := max w.now t.due
        stack := [t.body]
        timers := w.timers.filter (fun u => u.id != t.id) }
  | .skip :: rest => some { w with stack := rest }
  | .log args :: rest =>
    some { w with stack := rest, out := w.out ++ [⟨w.now, .out, args⟩] }
  | .error args :: rest =>
    some { w with stack := rest, out := w.out ++ [⟨w.now, .err, args⟩] }
  | .throw what :: _ =>
    some { w with stack := [], timers := [], crashed := some what }
  | .setTimeout body delay :: rest =>
    some { w with
      stack := rest
      timers := w.timers ++ [⟨w.nextId, w.now + delay, body⟩]
      nextId := w.nextId + 1 }
  | .call f arg callback :: rest =>
    some { w with
      stack := env.lookup f arg callback :: rest
      calls := w.calls ++ [(w.now, f)] }
  | .seq first second :: rest => some { w with stack := first :: second :: rest }

/-- Exactly `n` transitions (fewer if the loop finishes first). -/
def advance : Nat → Env → World → World
  | 0, _, w => w
  | n + 1, env, w =>
    match step env w with
    | none => w
    | some w' => advance n env w'

/-- Run the loop until it is finished; `none` if `fuel` transitions do not
suffice. -/
def run : Nat → Env → World → Option World
  | 0, _, _ => none
  | fuel + 1, env, w =>
    match step env w with
    | none => some w
    | some w' => run fuel env w'

/-- The host at start-up, about to execute the script `p`. -/
def boot (p : Prog) : World :=
  { now := 0, stack := [p], timers := [], nextId := 1, out := [], calls := [], crashed := none }

/-- The console arguments of an event list, in order. -/
def lines (es : List Event) : List (List JsVal) := es.map Event.args


/-- The console events of one run of the driver started at time `t` against
stages with delays `d1`, `d2`, `d3`, for an identifier that renders as `s`. -/
def driverTrace (d1 d2 d3 t : Nat) (s : String) : List Event :=
  [ ⟨t + d1, .out, [.str ("Fetching user with ID: " ++ s)]⟩,
    ⟨t + d1 + d2, .out, [.str ("Fetching orders for user: " ++ ("User " ++ s))]⟩,
    ⟨t + d1 + d2 + d3, .out, [.str ("Processing orders: " ++
        ("Order A for " ++ ("User " ++ s) ++ ", " ++ ("Order B for " ++ ("User " ++ s))))]⟩,
    ⟨t + d1 + d2 + d3, .out, [.str "All tasks completed!"]⟩,
    ⟨t + d1 + d2 + d3, .out, [.str "Processed Orders:",
        .arr [.str ("Processed " ++ ("Order A for " ++ ("User " ++ s))),
              .str ("Processed " ++ ("Order B for " ++ ("User " ++ s)))]]⟩ ]

/-- A recording callback: it prints the two arguments it is applied to. -/
def probe : Callback :=
  fun err value => .log [.str "callback", err, value]

/-- A stand-in stage that fails: after `delay` it hands `err` to its callback
as the error marker, with no value. -/
def failAfter (delay : Nat) (err : JsVal) : StageFn :=
  fun _ callback => .setTimeout (callback err .null) delay

/-! ## The event loop: general facts -/

/-- More fuel does not change the outcome of a finished run. -/
theorem run_mono {env : Env} {n : Nat} : ∀ {w w' : World}, run n env w = some w' →
    ∀ m, n ≤ m → run m env w = some w' := by
  induction n with
  | zero => intro w w' h; simp [run] at h
  | succ n ih =>
    intro w w' h m hm
    obtain ⟨m, rfl⟩ : ∃ j, m = j + 1 := ⟨m - 1, by omega⟩
    unfold run at h ⊢
    cases hs : step env w with
    | none => simpa [hs] using h
    | some w1 =>
      simp only [hs] at h ⊢
      exact ih h m (by omega)

/-- A run that finishes within `n` transitions finishes within `n + k`. -/
theorem run_extra {env : Env} {n : Nat} {w w' : World} (h : run n env w = some w')
    (k : Nat) : run (n + k) env w = some w' :=
  run_mono h (n + k) (Nat.le_add_right n k)

/-- A finished loop stays where it is. -/
theorem advance_of_finished (env : Env) (w : World) (h : step env w = none) (n : Nat) :
    advance n env w = w := by
  cases n with
  | zero => rfl
  | succ n => simp [advance, h]

/-- Iterating in two stretches. -/
theorem advance_add (env : Env) (n m : Nat) : ∀ w : World,
    advance (n + m) env w = advance m env (advance n env w) := by
  induction n with
  | zero => intro w; simp [advance]
  | succ n ih =>
    intro w
    have e : n + 1 + m = (n + m) + 1 := by omega
    rw [e]
    cases hs : step env w with
    | none => simp [advance, hs, advance_of_finished]
    | some w1 => simpa [advance, hs] using ih w1

/-! ## Conversions to string: general facts -/

/-- One unfolding of `join` on an array of at least two elements. -/
theorem joinWith_cons_cons (sep : String) (v b : JsVal) (rest : List JsVal) :
    joinWith sep (v :: b :: rest) =
      match (match v with
        | .null => some ""
        | .undefined => some ""
        | v => toStr v) with
      | none => none
      | some head =>
        match joinWith sep (b :: rest) with
        | none => none
        | some tail => some (head ++ sep ++ tail) := by
  cases v <;> rfl

/-- Joining an array of strings never throws. -/
theorem joinWith_strs (sep : String) : ∀ seq : List String,
    ∃ line, joinWith sep (seq.map .str) = some line := by
  intro seq
  induction seq with
  | nil => exact ⟨"", by simp [joinWith]⟩
  | cons a rest ih =>
    obtain ⟨tail, ht⟩ := ih
    cases rest with
    | nil => exact ⟨a, by simp [joinWith, toStr]⟩
    | cons b rest => exact ⟨a ++ sep ++ tail, by simp_all [joinWith, toStr]⟩

/-- Mapping over elements with the renderings `strs` prefixes each
rendering. -/
theorem processAll_of_renderings : ∀ (items : List JsVal) (strs : List String),
    List.Forall₂ (fun v s => toStr v = some s) items strs →
    processAll items = some (strs.map (fun s => .str ("Processed " ++ s))) := by
  intro items strs h
  induction h with
  | nil => rfl
  | cons hv _ ih => simp [processAll, hv, ih]

/-- Mapping over an array of strings prefixes each string. -/
theorem processAll_strs (seq : List String) :
    processAll (seq.map .str) = some (seq.map (fun s => .str ("Processed " ++ s))) := by
  induction seq with
  | nil => rfl
  | cons a rest ih => simp [processAll, toStr, ih]

/-- Where `join` does not throw, neither does `map`. -/
theorem processAll_of_join (sep : String) : ∀ (items : List JsVal) (line : String),
    joinWith sep items = some line → ∃ result, processAll items = some result := by
  intro items
  induction items with
  | nil => intro _ _; exact ⟨[], rfl⟩
  | cons v rest ih =>
    intro line h
    have hv : ∃ s, toStr v = some s := by
      cases v <;> first
        | exact ⟨_, rfl⟩
        | (cases hs : toStr _ with
            | some s => exact ⟨s, rfl⟩
            | none => simp [joinWith, hs] at h)
    obtain ⟨s, hs⟩ := hv
    have hr : ∃ tail, processAll rest = some tail := by
      cases rest with
      | nil => exact ⟨[], rfl⟩
      | cons b rest =>
        cases hj : joinWith sep (b :: rest) with
        | some t => exact ih t hj
        | none =>
          exfalso
          rw [joinWith_cons_cons, hj] at h
          cases v <;> simp [hs] at h
    obtain ⟨tail, ht⟩ := hr
    exact ⟨.str ("Processed " ++ s) :: tail, by simp [processAll, hs, ht]⟩

/-! ## The driver: general facts -/

/-- One run of the driver from any quiescent host, for an identifier that
renders as `s`: whatever the clock, the timer counter, the console history and
the call history are, the driver calls the three stages in turn and the loop
finishes after 18 transitions. -/
theorem run_driver (d1 d2 d3 t n : Nat) (o : List Event) (c : List (Nat × Stage))
    (id : JsVal) (s : String) (hid : toStr id = some s) :
    run 19 (stagesAfter d1 d2 d3)
        { now := t, stack := [driver id], timers := [], nextId := n, out := o, calls := c,
          crashed := none } =
      some { now := t + d1 + d2 + d3, stack := [], timers := [], nextId := n + 3,
             out := o ++ driverTrace d1 d2 d3 t s,
             calls := c ++ [(t, .getUser), (t + d1, .getOrders), (t + d1 + d2, .processOrders)],
             crashed := none } := by
  have hn : truthy .null = false := rfl
  simp [run, step, driver, Env.lookup, stagesAfter, getUserAfter, nextTimer, onUser, hn, hid,
    getOrdersAfter, nameOf, List.lookup, onOrders, processOrdersAfter, processAll,
    onProcessed, toStr, joinWith, driverTrace, Nat.add_assoc]

/-- One run of the driver from any quiescent host, for an identifier that
cannot be converted to a string: the timer body of `getUser` throws, nothing is
printed and no further stage is called. -/
theorem run_driver_throws (d1 d2 d3 t n : Nat) (o : List Event) (c : List (Nat × Stage))
    (id : JsVal) (crashed : Option String) (hid : toStr id = none) :
    run 19 (stagesAfter d1 d2 d3)
        { now := t, stack := [driver id], timers := [], nextId := n, out := o, calls := c,
          crashed := crashed } =
      some { now := t + d1, stack := [], timers := [], nextId := n + 1,
             out := o, calls := c ++ [(t, .getUser)], crashed := some "TypeError" } := by
  simp [run, step, driver, Env.lookup, stagesAfter, getUserAfter, nextTimer, hid]

/-- The script's bindings are the stages with all three delays at 1000. -/
theorem stages_eq : stages = stagesAfter 1000 1000 1000 := rfl

/-- An object with an own, non-callable `toString` property cannot serve as an
identifier: the timer body of `getUser` throws, nothing is printed, the
callback is never applied and no further stage is called. -/
theorem getUser_throws_on_unconvertible :
    run 5 stages (boot (driver (.obj [("toString", .num ⟨1, by decide⟩)]))) =
      some { now := 1000, stack := [], timers := [], nextId := 2, out := [],
             calls := [(0, .getUser)], crashed := some "TypeError" } := rfl

/-! ## The stages -/

/-- C1: for every order sequence `seq` and every callback `cb`, the call
`processOrders(seq, cb)` reaches, after its timer has fired, the point where
the only thing left to run is `cb(null, result)`, and `result` is an array of
strings of the same length as `seq` whose element at every index `i` is
`"Processed "` followed by `seq[i]`.  The empty sequence yields the empty
sequence. -/
theorem processOrders_delivers (seq : List String) (cb : Callback) :
    ∃ (result : List String) (line : String),
      joinWith ", " (seq.map .str) = some line ∧
      advance 5 stages (boot (.call .processOrders (.arr (seq.map .str)) cb)) =
        { now := 1000
          stack := [cb .null (.arr (result.map .str))]
          timers := []
          nextId := 2
          out := [⟨1000, .out, [.str ("Processing orders: " ++ line)]⟩]
          calls := [(0, .processOrders)]
          crashed := none } ∧
      result.length = seq.length ∧
      (∀ i : Nat, result[i]? = (seq[i]?).map (fun s => "Processed " ++ s)) := by
  obtain ⟨line, hl⟩ := joinWith_strs ", " seq
  refine ⟨seq.map (fun s => "Processed " ++ s), line, hl, ?_, by simp, by simp⟩
  simp [advance, step, boot, Env.lookup, stages, processOrders, processOrdersAfter,
    nextTimer, hl, processAll_strs, Function.comp_def]

/-- C2: for every user record `u` (any value whose `name` property is a string
`name`) and every callback `cb`, the call `getOrders(u, cb)` reaches, after its
timer has fired, the point where the only thing left to run is
`cb(null, ["Order A for " + name, "Order B for " + name])`. -/
theorem getOrders_delivers (u : JsVal) (name : String) (cb : Callback)
    (hu : nameOf u = some (.str name)) :
    advance 5 stages (boot (.call .getOrders u cb)) =
      { now := 1000
        stack := [cb .null (.arr [.str ("Order A for " ++ name), .str ("Order B for " ++ name)])]
        timers := []
        nextId := 2
        out := [⟨1000, .out, [.str ("Fetching orders for user: " ++ name)]⟩]
        calls := [(0, .getOrders)]
        crashed := none } := by
  simp [advance, step, boot, Env.lookup, stages, getOrders, getOrdersAfter, nextTimer, hu,
    toStr]

/-- The delivery of `getOrders` at the record with `id` 7 and `name` "Ada". -/
theorem getOrders_delivers_witness :
    nameOf (.obj [("id", .num ⟨7, by decide⟩), ("name", .str "Ada")]) = some (.str "Ada") ∧
    advance 5 stages
        (boot (.call .getOrders (.obj [("id", .num ⟨7, by decide⟩), ("name", .str "Ada")])
          (fun _ _ => .skip))) =
      { now := 1000
        stack := [.skip]
        timers := []
        nextId := 2
        out := [⟨1000, .out, [.str ("Fetching orders for user: " ++ "Ada")]⟩]
        calls := [(0, .getOrders)]
        crashed := none } :=
  ⟨rfl, getOrders_delivers _ "Ada" (fun _ _ => .skip) rfl⟩

/-- C3: for every identifier `id`, that is every value with a textual
rendering `s`, and every callback `cb`, the call `getUser(id, cb)` reaches,
after its timer has fired, the point where the only thing left to run is
`cb(null, user)`, where `user.id` is `id` and `user.name` is `"User "`
followed by `s`.  The rendering of a safe integer is its decimal numeral (so
the identifier `123` gives the name `"User 123"`), that of a string is the
string itself, and `null`, `undefined`, `true` and `false` render as those
words. -/
theorem getUser_delivers (id : JsVal) (s : String) (n : SafeInt) (t : String) (cb : Callback)
    (hid : toStr id = some s) :
    advance 5 stages (boot (.call .getUser id cb)) =
      { now := 1000
        stack := [cb .null (.obj [("id", id), ("name", .str ("User " ++ s))])]
        timers := []
        nextId := 2
        out := [⟨1000, .out, [.str ("Fetching user with ID: " ++ s)]⟩]
        calls := [(0, .getUser)]
        crashed := none } ∧
    List.lookup "id" [("id", id), ("name", JsVal.str ("User " ++ s))] = some id ∧
    nameOf (.obj [("id", id), ("name", .str ("User " ++ s))]) = some (.str ("User " ++ s)) ∧
    (advance 5 stages (boot (.call .getUser (.num ⟨123, by decide⟩) cb))).stack =
      [cb .null (.obj [("id", .num ⟨123, by decide⟩), ("name", .str "User 123")])] ∧
    (advance 5 stages (boot (.call .getUser (.num n) cb))).stack =
      [cb .null (.obj [("id", .num n), ("name", .str ("User " ++ toString n.val))])] ∧
    (advance 5 stages (boot (.call .getUser (.str t) cb))).stack =
      [cb .null (.obj [("id", .str t), ("name", .str ("User " ++ t))])] ∧
    (advance 5 stages (boot (.call .getUser .null cb))).stack =
      [cb .null (.obj [("id", .null), ("name", .str "User null")])] ∧
    (advance 5 stages (boot (.call .getUser .undefined cb))).stack =
      [cb .null (.obj [("id", .undefined), ("name", .str "User undefined")])] ∧
    (advance 5 stages (boot (.call .getUser (.bool true) cb))).stack =
      [cb .null (.obj [("id", .bool true), ("name", .str "User true")])] ∧
    (advance 5 stages (boot (.call .getUser (.bool false) cb))).stack =
      [cb .null (.obj [("id", .bool false), ("name", .str "User false")])] := by
  refine ⟨?_, rfl, rfl, rfl, rfl, rfl, rfl, rfl, rfl, rfl⟩
  simp [advance, step, boot, Env.lookup, stages, getUser, getUserAfter, nextTimer, hid]

/-- The delivery of `getUser` at the identifier `123` of the script. -/
theorem getUser_delivers_witness :
    toStr (.num ⟨123, by decide⟩) = some "123" ∧
    advance 5 stages (boot (.call .getUser (.num ⟨123, by decide⟩) probe)) =
      { now := 1000
        stack := [probe .null (.obj [("id", .num ⟨123, by decide⟩), ("name", .str "User 123")])]
        timers := []
        nextId := 2
        out := [⟨1000, .out, [.str "Fetching user with ID: 123"]⟩]
        calls := [(0, .getUser)]
        crashed := none } :=
  ⟨rfl, (getUser_delivers (.num ⟨123, by decide⟩) "123" ⟨0, by decide⟩ "" probe rfl).1⟩

/-- C4: the script as written (identifier `123`) reaches, after 15 transitions,
the point where the only thing left to run is the innermost callback applied to
`(null, ["Processed Order A for User 123", "Processed Order B for User 123"])`;
that application is the success branch, and the run finishes having printed the
completion trace and the processed sequence. -/
theorem main_reaches_success (extra : Nat) :
    (advance 15 stages (boot main)).stack =
      [onProcessed .null
        (.arr [.str "Processed Order A for User 123", .str "Processed Order B for User 123"])] ∧
    onProcessed .null
        (.arr [.str "Processed Order A for User 123", .str "Processed Order B for User 123"]) =
      .seq (.log [.str "All tasks completed!"])
        (.log [.str "Processed Orders:",
          .arr [.str "Processed Order A for User 123", .str "Processed Order B for User 123"]]) ∧
    (run (19 + extra) stages (boot main)).map (fun w => (w.out.drop 3, w.crashed)) =
      some ([⟨3000, .out, [.str "All tasks completed!"]⟩,
             ⟨3000, .out, [.str "Processed Orders:",
                .arr [.str "Processed Order A for User 123",
                      .str "Processed Order B for User 123"]]⟩], none) := by
  refine ⟨rfl, rfl, ?_⟩
  rw [run_extra (show run 19 stages (boot main) = some _ from rfl) extra]
  rfl

/-! ## The driver -/

/-- C6: for the script as written (identifier `123`) and for every choice of
the three stage delays, the run finishes and the console has received exactly
five calls, all on the output stream, in this order: the fetch-user trace, the
fetch-orders trace, the process-orders trace, the completion trace, and the
processed-results trace carrying the processed sequence. -/
theorem trace_order_any_delays (d1 d2 d3 extra : Nat) :
    (run (19 + extra) (stagesAfter d1 d2 d3) (boot main)).map
        (fun w => (lines w.out, w.out.map Event.stream)) =
      some ([[.str "Fetching user with ID: 123"],
             [.str "Fetching orders for user: User 123"],
             [.str "Processing orders: Order A for User 123, Order B for User 123"],
             [.str "All tasks completed!"],
             [.str "Processed Orders:",
               .arr [.str "Processed Order A for User 123",
                     .str "Processed Order B for User 123"]]],
            [.out, .out, .out, .out, .out]) := by
  have h := run_extra (run_driver d1 d2 d3 0 1 [] [] (.num ⟨123, by decide⟩) "123" rfl) extra
  have e : boot main =
      (⟨0, [driver (.num ⟨123, by decide⟩)], [], 1, [], [], none⟩ : World) := rfl
  rw [e, h]
  rfl

/-- C7 (counterexample): on the one-element sequence `["Order A"]`, applying
the transformation of `processOrders` twice gives
`["Processed Processed Order A"]`, which is not what applying it once gives. -/
theorem processAll_not_idempotent :
    (processAll [.str "Order A"]).bind processAll = some [.str "Processed Processed Order A"] ∧
    processAll [.str "Order A"] = some [.str "Processed Order A"] ∧
    (processAll [.str "Order A"]).bind processAll ≠ processAll [.str "Order A"] := by
  refine ⟨rfl, rfl, ?_⟩
  simp [processAll, toStr]

/-- C7 (amended): the transformation of `processOrders` prefixes every element
once per application.  For every array whose elements render as `strs`,
applying it once yields every rendering prefixed once, applying it twice
yields, at every index, the rendering prefixed twice, and applying it twice
equals applying it once exactly when the array is empty. -/
theorem processAll_twice (items : List JsVal) (strs : List String)
    (h : List.Forall₂ (fun v s => toStr v = some s) items strs) :
    processAll items = some (strs.map (fun s => .str ("Processed " ++ s))) ∧
    (processAll items).bind processAll =
      some (strs.map (fun s => .str ("Processed " ++ ("Processed " ++ s)))) ∧
    ((processAll items).bind processAll = processAll items ↔ items = []) := by
  have h1 := processAll_of_renderings items strs h
  have h2 : (processAll items).bind processAll =
      some (strs.map (fun s => .str ("Processed " ++ ("Processed " ++ s)))) := by
    have := processAll_strs (strs.map (fun s => "Processed " ++ s))
    simp only [List.map_map, Function.comp_def] at this
    rw [h1, Option.some_bind, this]
  refine ⟨h1, h2, ?_⟩
  rw [h2, h1]
  constructor
  · intro e
    cases h with
    | nil => rfl
    | cons hv _ =>
      exfalso
      simp only [List.map_cons, Option.some.injEq, List.cons.injEq, JsVal.str.injEq] at e
      have hl := congrArg String.length e.1
      simp only [String.length_append] at hl
      have : "Processed ".length = 10 := by decide
      omega
  · rintro rfl
    cases h
    rfl

/-- The double application at the array `["Order A", 7]`. -/
theorem processAll_twice_witness :
    List.Forall₂ (fun v s => toStr v = some s)
      [.str "Order A", .num ⟨7, by decide⟩] ["Order A", "7"] ∧
    (processAll [.str "Order A", .num ⟨7, by decide⟩]).bind processAll =
      some [.str "Processed Processed Order A", .str "Processed Processed 7"] :=
  ⟨.cons rfl (.cons rfl .nil),
    (processAll_twice [.str "Order A", .num ⟨7, by decide⟩] ["Order A", "7"]
      (.cons rfl (.cons rfl .nil))).2.1⟩

/-- C8: for every identifier, running the driver and then, once the loop has
finished, running it again in the same host, both runs finish, and the second
run sends to the console exactly the calls the first one did, on the same
streams and with the same final processed sequence.  More generally the calls
of a run from any quiescent host (whatever its clock, timer counter, console
history and call history) depend on the identifier alone. -/
theorem rerun_same_output (id : JsVal) (extra1 extra2 : Nat) :
    ∃ w1 w2 : World,
      run (19 + extra1) stages (boot (driver id)) = some w1 ∧
      run (19 + extra2) stages { w1 with stack := [driver id] } = some w2 ∧
      lines w2.out = lines w1.out ++ lines w1.out ∧
      w2.out.map Event.stream = w1.out.map Event.stream ++ w1.out.map Event.stream ∧
      (lines w2.out).getLast? = (lines w1.out).getLast? ∧
      ∀ (t n : Nat) (o : List Event) (c : List (Nat × Stage)),
        ∃ w : World,
          run (19 + extra1) stages
            { now := t, stack := [driver id], timers := [], nextId := n, out := o, calls := c,
              crashed := none } = some w ∧
          lines w.out = lines o ++ lines w1.out := by
  cases hid : toStr id with
  | some s =>
    refine ⟨_, _, run_extra (run_driver 1000 1000 1000 0 1 [] [] id s hid) extra1,
      run_extra (run_driver 1000 1000 1000 _ _ _ _ id s hid) extra2, ?_, ?_, ?_, ?_⟩
    · simp [lines, driverTrace]
    · simp [driverTrace]
    · simp [lines, driverTrace]
    · intro t n o c
      exact ⟨_, run_extra (run_driver 1000 1000 1000 t n o c id s hid) extra1,
        by simp [lines, driverTrace]⟩
  | none =>
    refine ⟨_, _, run_extra (run_driver_throws 1000 1000 1000 0 1 [] [] id none hid) extra1,
      run_extra (run_driver_throws 1000 1000 1000 _ _ _ _ id _ hid) extra2, ?_, ?_, ?_, ?_⟩
    · simp [lines]
    · simp
    · simp [lines]
    · intro t n o c
      exact ⟨_, run_extra (run_driver_throws 1000 1000 1000 t n o c id none hid) extra1,
        by simp [lines]⟩

/-- C5 (counterexample): the error markers `0` and `false` are not `null`, yet
the driver treats them as success.  With stage 3 replaced by a stand-in that
fails with the marker `0`, the run prints no error trace and does print
"All tasks completed!".  With stage 1 replaced by a stand-in that fails with
the marker `false`, the driver prints no error trace and goes on to call
stage 2. -/
theorem falsy_marker_not_short_circuited :
    JsVal.num ⟨0, by decide⟩ ≠ JsVal.null ∧
    (run 19 { stages with processOrders := failAfter 1000 (.num ⟨0, by decide⟩) }
        (boot main)).map
        (fun w => (lines w.out, w.out.map Event.stream, w.calls)) =
      some ([[.str "Fetching user with ID: 123"],
             [.str "Fetching orders for user: User 123"],
             [.str "All tasks completed!"],
             [.str "Processed Orders:", .null]],
            [.out, .out, .out, .out],
            [(0, .getUser), (1000, .getOrders), (2000, .processOrders)]) ∧
    JsVal.bool false ≠ JsVal.null ∧
    (run 19 { stages with getUser := failAfter 1000 (.bool false) } (boot main)).map
        (fun w => (lines w.out, w.calls, w.crashed)) =
      some ([], [(0, .getUser), (1000, .getOrders)], some "TypeError") := by
  refine ⟨by simp, rfl, by simp, rfl⟩

/-- C5 (amended): whenever a continuation of the driver is applied to a truthy
error marker, executing it is one transition that prints exactly one error
trace naming the stage ("Error getting user:", "Error getting orders:" or
"Error processing orders:") together with the marker, and changes nothing
else: no stage is called, no timer is set.  Whatever the later stages are
bound to, a run in which stage 1, 2 or 3 is a stand-in failing with a truthy
marker finishes with that one error trace, every later stage never called, and
"All tasks completed!" never printed.  (Where the identifier has no rendering
the real stage 1 throws before any continuation is applied.) -/
theorem truthy_marker_short_circuits (env : Env) (w : World) (rest : List Prog)
    (err value id : JsVal) (g2 g3 : StageFn) (d extra : Nat) (h : truthy err = true) :
    step env { w with stack := onUser err value :: rest } =
      some { w with stack := rest,
                    out := w.out ++ [⟨w.now, .err, [.str "Error getting user:", err]⟩] } ∧
    step env { w with stack := onOrders err value :: rest } =
      some { w with stack := rest,
                    out := w.out ++ [⟨w.now, .err, [.str "Error getting orders:", err]⟩] } ∧
    step env { w with stack := onProcessed err value :: rest } =
      some { w with stack := rest,
                    out := w.out ++ [⟨w.now, .err, [.str "Error processing orders:", err]⟩] } ∧
    run (5 + extra) { getUser := failAfter d err, getOrders := g2, processOrders := g3 }
        (boot (driver id)) =
      some { now := d, stack := [], timers := [], nextId := 2,
             out := [⟨d, .err, [.str "Error getting user:", err]⟩],
             calls := [(0, .getUser)], crashed := none } ∧
    run (10 + extra) { getUser := getUser, getOrders := failAfter d err, processOrders := g3 }
        (boot (driver id)) =
      some (match toStr id with
        | some s =>
          { now := 1000 + d, stack := [], timers := [], nextId := 3,
            out := [⟨1000, .out, [.str ("Fetching user with ID: " ++ s)]⟩,
                    ⟨1000 + d, .err, [.str "Error getting orders:", err]⟩],
            calls := [(0, .getUser), (1000, .getOrders)], crashed := none }
        | none =>
          { now := 1000, stack := [], timers := [], nextId := 2, out := [],
            calls := [(0, .getUser)], crashed := some "TypeError" }) ∧
    run (15 + extra) { getUser := getUser, getOrders := getOrders,
                       processOrders := failAfter d err } (boot (driver id)) =
      some (match toStr id with
        | some s =>
          { now := 2000 + d, stack := [], timers := [], nextId := 4,
            out := [⟨1000, .out, [.str ("Fetching user with ID: " ++ s)]⟩,
                    ⟨2000, .out, [.str ("Fetching orders for user: " ++ ("User " ++ s))]⟩,
                    ⟨2000 + d, .err, [.str "Error processing orders:", err]⟩],
            calls := [(0, .getUser), (1000, .getOrders), (2000, .processOrders)],
            crashed := none }
        | none =>
          { now := 1000, stack := [], timers := [], nextId := 2, out := [],
            calls := [(0, .getUser)], crashed := some "TypeError" }) := by
  have hn : truthy .null = false := rfl
  refine ⟨?_, ?_, ?_, run_extra ?_ extra, run_extra ?_ extra, run_extra ?_ extra⟩
  · simp [step, onUser, h]
  · simp [step, onOrders, h]
  · simp [step, onProcessed, h]
  · simp [run, step, boot, driver, Env.lookup, failAfter, nextTimer, onUser, h]
  · cases hid : toStr id <;>
      simp [run, step, boot, driver, Env.lookup, failAfter, nextTimer, onUser, onOrders, h,
        getUser, getUserAfter, hn, hid]
  · cases hid : toStr id <;>
      simp [run, step, boot, driver, Env.lookup, failAfter, nextTimer, onUser, onOrders,
        onProcessed, h, getUser, getUserAfter, getOrders, getOrdersAfter, nameOf, List.lookup,
        toStr, hn, hid]

/-- The short circuit at the truthy marker "boom", injected at stage 1 of the
script as written. -/
theorem truthy_marker_short_circuits_witness :
    truthy (.str "boom") = true ∧
    run (5 + 0) { getUser := failAfter 250 (.str "boom"), getOrders := getOrders,
                  processOrders := processOrders } (boot (driver (.num ⟨123, by decide⟩))) =
      some { now := 250, stack := [], timers := [], nextId := 2,
             out := [⟨250, .err, [.str "Error getting user:", .str "boom"]⟩],
             calls := [(0, .getUser)], crashed := none } :=
  ⟨rfl, (truthy_marker_short_circuits stages (boot main) [] (.str "boom") .null
    (.num ⟨123, by decide⟩) getOrders processOrders 250 0 rfl).2.2.2.1⟩

/-- C9: each stage, on every well-formed input, hands its callback a `null`
error marker and a value that is not `null`, exactly once: for every callback,
five transitions after the call the only thing left to run is that one
application and no timer is pending; with a recording callback the finished
run shows exactly one record.  The well-formed inputs are: for `getUser` an
identifier with a rendering `s`; for `getOrders` a value whose `name` property
has a rendering `ns`; for `processOrders` an array whose elements can be
joined.  Consequently, for every such identifier, the driver as written
finishes without a crash, with every stage called once, with nothing on the
error stream, and with the completion trace and the processed sequence as its
last two console calls. -/
theorem stages_never_fail (id user name : JsVal) (s ns line : String) (items : List JsVal)
    (cb : Callback) (extra : Nat)
    (hid : toStr id = some s)
    (hname : nameOf user = some name) (hns : toStr name = some ns)
    (hitems : joinWith ", " items = some line) :
    (∃ v, v ≠ .null ∧ v ≠ .undefined ∧
      (advance 5 stages (boot (.call .getUser id cb))).stack = [cb .null v] ∧
      (advance 5 stages (boot (.call .getUser id cb))).timers = [] ∧
      (advance 5 stages (boot (.call .getUser id cb))).crashed = none ∧
      (run (7 + extra) stages (boot (.call .getUser id probe))).map
          (fun w => (lines w.out, w.crashed)) =
        some ([[.str ("Fetching user with ID: " ++ s)], [.str "callback", .null, v]], none)) ∧
    (∃ v, v ≠ .null ∧ v ≠ .undefined ∧
      (advance 5 stages (boot (.call .getOrders user cb))).stack = [cb .null v] ∧
      (advance 5 stages (boot (.call .getOrders user cb))).timers = [] ∧
      (advance 5 stages (boot (.call .getOrders user cb))).crashed = none ∧
      (run (7 + extra) stages (boot (.call .getOrders user probe))).map
          (fun w => (lines w.out, w.crashed)) =
        some ([[.str ("Fetching orders for user: " ++ ns)], [.str "callback", .null, v]],
          none)) ∧
    (∃ v, v ≠ .null ∧ v ≠ .undefined ∧
      (advance 5 stages (boot (.call .processOrders (.arr items) cb))).stack = [cb .null v] ∧
      (advance 5 stages (boot (.call .processOrders (.arr items) cb))).timers = [] ∧
      (advance 5 stages (boot (.call .processOrders (.arr items) cb))).crashed = none ∧
      (run (7 + extra) stages (boot (.call .processOrders (.arr items) probe))).map
          (fun w => (lines w.out, w.crashed)) =
        some ([[.str ("Processing orders: " ++ line)], [.str "callback", .null, v]], none)) ∧
    (∃ w, run (19 + extra) stages (boot (driver id)) = some w ∧
      w.crashed = none ∧
      w.calls = [(0, .getUser), (1000, .getOrders), (2000, .processOrders)] ∧
      w.out.map Event.stream = [.out, .out, .out, .out, .out] ∧
      (lines w.out).drop 3 =
        [[.str "All tasks completed!"],
         [.str "Processed Orders:",
           .arr [.str ("Processed " ++ ("Order A for " ++ ("User " ++ s))),
                 .str ("Processed " ++ ("Order B for " ++ ("User " ++ s)))]]]) := by
  obtain ⟨result, hres⟩ := processAll_of_join ", " items line hitems
  refine ⟨⟨.obj [("id", id), ("name", .str ("User " ++ s))], by simp, by simp, ?_, ?_, ?_, ?_⟩,
    ⟨.arr [.str ("Order A for " ++ ns), .str ("Order B for " ++ ns)],
      by simp, by simp, ?_, ?_, ?_, ?_⟩,
    ⟨.arr result, by simp, by simp, ?_, ?_, ?_, ?_⟩,
    ⟨_, run_extra (run_driver 1000 1000 1000 0 1 [] [] id s hid) extra, rfl, rfl, rfl, rfl⟩⟩
  · simp [advance, step, boot, Env.lookup, stages, getUser, getUserAfter, nextTimer, hid]
  · simp [advance, step, boot, Env.lookup, stages, getUser, getUserAfter, nextTimer, hid]
  · simp [advance, step, boot, Env.lookup, stages, getUser, getUserAfter, nextTimer, hid]
  · rw [run_extra (show run 7 stages (boot (.call .getUser id probe)) = some _ by
      simp [run, step, boot, Env.lookup, stages, getUser, getUserAfter, nextTimer, probe, hid]
      rfl) extra]
    rfl
  · simp [advance, step, boot, Env.lookup, stages, getOrders, getOrdersAfter, nextTimer, hname,
      hns]
  · simp [advance, step, boot, Env.lookup, stages, getOrders, getOrdersAfter, nextTimer, hname,
      hns]
  · simp [advance, step, boot, Env.lookup, stages, getOrders, getOrdersAfter, nextTimer, hname,
      hns]
  · rw [run_extra (show run 7 stages (boot (.call .getOrders user probe)) = some _ by
      simp [run, step, boot, Env.lookup, stages, getOrders, getOrdersAfter, nextTimer, probe,
        hname, hns]
      rfl) extra]
    rfl
  · simp [advance, step, boot, Env.lookup, stages, processOrders, processOrdersAfter, nextTimer,
      hitems, hres]
  · simp [advance, step, boot, Env.lookup, stages, processOrders, processOrdersAfter, nextTimer,
      hitems, hres]
  · simp [advance, step, boot, Env.lookup, stages, processOrders, processOrdersAfter, nextTimer,
      hitems, hres]
  · rw [run_extra (show run 7 stages (boot (.call .processOrders (.arr items) probe)) =
        some _ by
      simp [run, step, boot, Env.lookup, stages, processOrders, processOrdersAfter, nextTimer,
        probe, hitems, hres]
      rfl) extra]
    rfl

/-- The stages at the inputs the script as written gives them: the identifier
`123`, the record of user 123, and the two orders of that user. -/
theorem stages_never_fail_witness :
    toStr (.num ⟨123, by decide⟩) = some "123" ∧
    nameOf (.obj [("id", .num ⟨123, by decide⟩), ("name", .str "User 123")]) =
      some (.str "User 123") ∧
    toStr (.str "User 123") = some "User 123" ∧
    joinWith ", " [.str "Order A for User 123", .str "Order B for User 123"] =
      some "Order A for User 123, Order B for User 123" ∧
    ∃ w, run (19 + 0) stages (boot (driver (.num ⟨123, by decide⟩))) = some w ∧
      w.crashed = none ∧
      w.calls = [(0, .getUser), (1000, .getOrders), (2000, .processOrders)] ∧
      w.out.map Event.stream = [.out, .out, .out, .out, .out] ∧
      (lines w.out).drop 3 =
        [[.str "All tasks completed!"],
         [.str "Processed Orders:",
           .arr [.str ("Processed " ++ ("Order A for " ++ ("User " ++ "123"))),
                 .str ("Processed " ++ ("Order B for " ++ ("User " ++ "123")))]]] :=
  ⟨rfl, rfl, rfl, rfl,
    (stages_never_fail (.num ⟨123, by decide⟩)
      (.obj [("id", .num ⟨123, by decide⟩), ("name", .str "User 123")]) (.str "User 123")
      "123" "User 123" "Order A for User 123, Order B for User 123"
      [.str "Order A for User 123", .str "Order B for User 123"] probe 0 rfl rfl rfl rfl).2.2.2⟩

/-- The script as written is finished after 18 transitions. -/
theorem main_finished : step stages (advance 18 stages (boot main)) = none := rfl

/-- From the 18th transition on the host no longer changes. -/
theorem advance_main_late (n : Nat) (h : 18 ≤ n) :
    advance n stages (boot main) = advance 18 stages (boot main) := by
  obtain ⟨k, rfl⟩ := Nat.exists_eq_add_of_le h
  rw [advance_add, advance_of_finished _ _ main_finished]

/-- C10: on the virtual clock the script as written runs its three stages
strictly one after another.  The timer of stage 1 is set at time 0 and due at
1000, that of stage 2 is set at time 1000 (when the continuation of stage 1
runs) and due at 2000, that of stage 3 is set at time 2000 and due at 3000; at
no point is more than one timer pending.  The stage traces are printed at
times 1000, 2000 and 3000, the completion trace at time 3000, the sum of the
three delays, and nothing is printed before time 1000. -/
theorem stages_run_in_sequence (extra : Nat) :
    run (19 + extra) stages (boot main) =
      some { now := 3000, stack := [], timers := [], nextId := 4,
             out := [⟨1000, .out, [.str "Fetching user with ID: 123"]⟩,
                     ⟨2000, .out, [.str "Fetching orders for user: User 123"]⟩,
                     ⟨3000, .out, [.str
                        "Processing orders: Order A for User 123, Order B for User 123"]⟩,
                     ⟨3000, .out, [.str "All tasks completed!"]⟩,
                     ⟨3000, .out, [.str "Processed Orders:",
                        .arr [.str "Processed Order A for User 123",
                              .str "Processed Order B for User 123"]]⟩],
             calls := [(0, .getUser), (1000, .getOrders), (2000, .processOrders)],
             crashed := none } ∧
    ((advance 2 stages (boot main)).now,
      (advance 2 stages (boot main)).timers.map (fun t => (t.id, t.due))) = (0, [(1, 1000)]) ∧
    ((advance 7 stages (boot main)).now,
      (advance 7 stages (boot main)).timers.map (fun t => (t.id, t.due))) = (1000, [(2, 2000)]) ∧
    ((advance 12 stages (boot main)).now,
      (advance 12 stages (boot main)).timers.map (fun t => (t.id, t.due))) = (2000, [(3, 3000)]) ∧
    (∀ n, (advance n stages (boot main)).timers.length ≤ 1) ∧
    (∀ n, ((advance n stages (boot main)).out.map Event.time).all (fun t => 1000 ≤ t) = true) ∧
    (∀ n, (advance n stages (boot main)).now < 1000 → (advance n stages (boot main)).out = []) := by
  refine ⟨run_extra (show run 19 stages (boot main) = some _ from rfl) extra, rfl, rfl, rfl,
    ?_, ?_, ?_⟩
  · intro n
    rcases Nat.lt_or_ge n 18 with h | h
    · interval_cases n <;> decide
    · rw [advance_main_late n h]; decide
  · intro n
    rcases Nat.lt_or_ge n 18 with h | h
    · interval_cases n <;> rfl
    · rw [advance_main_late n h]; rfl
  · intro n
    rcases Nat.lt_or_ge n 18 with h | h
    · interval_cases n <;> first | (intro _; rfl) | (intro hlt; exact absurd hlt (by decide))
    · rw [advance_main_late n h]; intro hlt; exact absurd hlt (by decide)

end CallbackHell
